import Mathlib

/-!
Verification development for the Catalog Matching & Order Validation Engine:
a shallow embedding of `ProductCatalogService`, `CacheService` and `RateLimiter`
(plus the `/api/products/validate` HTTP handler) into Lean, with theorems
checking the specification's statements against the embedded code.

Conventions of the embedding:
* JavaScript numbers that hold integers (stock, quantities, timestamps) become
  `Int`; prices and confidence scores (`1.0 / 0.8 / 0.6 / 0.4`, exactly
  representable and only ever compared) become `ℚ` written with `mkRat`.
* JavaScript strings become `String`; `toLowerCase`, `includes`, `trim`,
  `localeCompare` and `split` are embedded as list-of-character functions so
  that every definition is kernel-computable.
* Stateful services pass their state explicitly; `Date.now()` becomes an
  explicit `now : Int` argument.
* `Array.prototype.sort`, stable per the ECMAScript standard, is embedded as
  `List.mergeSort` with the comparator `c` turned into `le a b ↔ c a b ≤ 0`.
-/

namespace Zaqathon

/-- Whitespace test used by the embedding of `String.prototype.trim`. -/
def jsWhitespace (c : Char) : Bool :=
  c == ' ' || c == '\t' || c == '\n' || c == '\r'

/-- Embedding of `String.prototype.trim`: drop whitespace at both ends. -/
def jsTrim (s : String) : String :=
  String.mk (((s.data.dropWhile jsWhitespace).reverse.dropWhile jsWhitespace).reverse)

/-- Embedding of `String.prototype.toLowerCase` (ASCII case folding). -/
def jsToLower (s : String) : String :=
  String.mk (s.data.map Char.toLower)

/-- Embedding of `s.includes(q)`: `q` occurs as a contiguous substring of `s`.
Note `jsIncludes s "" = true` for every `s`, as in JavaScript. -/
def jsIncludes (s q : String) : Bool :=
  decide (q.data <:+: s.data)

/-- Code-point lexicographic order on character lists; the embedding of
`a.localeCompare(b) <= 0` (the default locale agrees with code-point order on
the catalog's ASCII data). -/
def lexLe : List Char → List Char → Bool
  | [], _ => true
  | _ :: _, [] => false
  | a :: as, b :: bs =>
    if a.toNat < b.toNat then true
    else if b.toNat < a.toNat then false
    else lexLe as bs

/-- Digit test for the numeric parsers. -/
def isDigitChar (c : Char) : Bool :=
  '0' ≤ c && c ≤ '9'

/-- Value of a digit run (most significant first). -/
def digitsToNat (cs : List Char) : Nat :=
  cs.foldl (fun acc c => 10 * acc + (c.toNat - 48)) 0

/-- Longest leading digit run, `none` when it is empty. -/
def parseDigits (cs : List Char) : Option Nat :=
  let ds := cs.takeWhile isDigitChar
  if ds.isEmpty then none else some (digitsToNat ds)

/-- Embedding of `parseInt(s)` (radix 10): optional sign followed by a leading
digit run; `none` stands for `NaN`. -/
def jsParseInt (s : String) : Option Int :=
  match (jsTrim s).data with
  | '-' :: rest => (parseDigits rest).map (fun n => -(n : Int))
  | '+' :: rest => (parseDigits rest).map (fun n => (n : Int))
  | cs => (parseDigits cs).map (fun n => (n : Int))

/-- Magnitude part of `parseFloat`: leading digits, then an optional point and
fraction digits; `none` when no digit was consumed. -/
def parseFloatMag (cs : List Char) : Option ℚ :=
  let intDigits := cs.takeWhile isDigitChar
  let rest := cs.drop intDigits.length
  let fracDigits :=
    match rest with
    | '.' :: r => r.takeWhile isDigitChar
    | _ => []
  if intDigits.isEmpty && fracDigits.isEmpty then none
  else some ((digitsToNat intDigits : ℚ) + mkRat (digitsToNat fracDigits) (10 ^ fracDigits.length))

/-- Embedding of `parseFloat(s)` on plain decimal notation; `none` stands for
`NaN`. -/
def jsParseFloat (s : String) : Option ℚ :=
  match (jsTrim s).data with
  | '-' :: rest => (parseFloatMag rest).map (fun q => -q)
  | '+' :: rest => (parseFloatMag rest).map (fun q => q)
  | cs => (parseFloatMag cs).map (fun q => q)

/-- Embedding of `x || d` for an integer `x` that may be `NaN` (`none`): both
`NaN` and `0` are falsy, so both fall back to the default. -/
def jsOrInt (x : Option Int) (d : Int) : Int :=
  match x with
  | none => d
  | some v => if v = 0 then d else v

/-- Embedding of `x || d` for a rational `x` that may be `NaN` (`none`). -/
def jsOrRat (x : Option ℚ) (d : ℚ) : ℚ :=
  match x with
  | none => d
  | some v => if v = 0 then d else v

/-- Text before the first `'-'`: the embedding of `code.split('-')[0]`. -/
def splitHead (s : String) : String :=
  String.mk (s.data.takeWhile (fun c => !(c == '-')))

/-- Remove one leading quote: the embedding of `s.replace(/^"/, '')`. -/
def stripLeadingQuote (s : String) : String :=
  match s.data with
  | '"' :: rest => String.mk rest
  | _ => s

/-- Remove one trailing quote: the embedding of `s.replace(/"$/, '')`. -/
def stripTrailingQuote (s : String) : String :=
  if s.data.getLast? = some '"' then String.mk s.data.dropLast else s

/-- Embedding of `Map.prototype.set` on an association list: replace in place
when the key is present, append otherwise (JavaScript `Map` insertion order). -/
def mapSet {β : Type} : List (String × β) → String → β → List (String × β)
  | [], key, v => [(key, v)]
  | (k, w) :: rest, key, v =>
    if k == key then (key, v) :: rest else (k, w) :: mapSet rest key v

/-- Embedding of `Map.prototype.delete` (ignoring the returned flag). -/
def mapDelete {β : Type} (m : List (String × β)) (key : String) : List (String × β) :=
  m.filter (fun kv => !(kv.1 == key))

/-- `shared/types/core` `ProductCategory`. -/
structure ProductCategory where
  code : String
  name : String
deriving DecidableEq

/-- `shared/types/core` `ProductAttributes` (the service only fills `tags`). -/
structure ProductAttributes where
  tags : List String
deriving DecidableEq

/-- `shared/types/core` `Product` as built by `ProductCatalogService`. -/
structure Product where
  product_code : String
  product_name : String
  price : ℚ
  available_in_stock : Int
  min_order_quantity : Int
  description : String
  category : ProductCategory
  attributes : ProductAttributes
deriving DecidableEq

/-- `ProductSearchResult` returned by `searchProducts`. -/
structure ProductSearchResult where
  products : List Product
  total : Nat
  confidence_scores : List ℚ
deriving DecidableEq

/-- `ProductCatalogService.calculateMatchConfidence`: the `if / else if` chain
over exact code, code substring, name substring, description substring. -/
def calculateMatchConfidence (product : Product) (query : String) : ℚ :=
  let queryLower := jsToLower query
  if jsToLower product.product_code == queryLower then mkRat 10 10
  else if jsIncludes (jsToLower product.product_code) queryLower then mkRat 8 10
  else if jsIncludes (jsToLower product.product_name) queryLower then mkRat 6 10
  else if jsIncludes (jsToLower product.description) queryLower then mkRat 4 10
  else 0

/-- The local `matches` of `ProductCatalogService.searchProducts`: score every
product, drop zero scores, stable sort descending by confidence (the ES2019
`Array.prototype.sort` with `(a, b) => b.confidence - a.confidence`), truncate
to `limit`. -/
def searchMatches (catalog : List Product) (query : String) (limit : Nat) :
    List (Product × ℚ) :=
  ((((catalog.map (fun product => (product, calculateMatchConfidence product query))).filter
      (fun m => decide (0 < m.2))).mergeSort
    (fun a b => decide (b.2 ≤ a.2))).take limit)

/-- `ProductCatalogService.searchProducts` (default `limit` 20). -/
def searchProducts (catalog : List Product) (query : String) (limit : Nat := 20) :
    ProductSearchResult :=
  { products := (searchMatches catalog query limit).map (fun m => m.1)
    total := (searchMatches catalog query limit).length
    confidence_scores := (searchMatches catalog query limit).map (fun m => m.2) }

/-- `ProductCatalogService.findBySKU`: first case-insensitive exact code hit. -/
def findBySKU (catalog : List Product) (sku : String) : Option Product :=
  catalog.find? (fun p => jsToLower p.product_code == jsToLower (sku))

/-- The comparator of `getSuggestions` as a `le` relation: a code match sorts
before a name-only match, remaining ties by `localeCompare` on the name. -/
def suggestionLe (partSku : String) (a b : Product) : Bool :=
  let aSkuMatch := jsIncludes (jsToLower a.product_code) (jsToLower partSku)
  let bSkuMatch := jsIncludes (jsToLower b.product_code) (jsToLower partSku)
  if aSkuMatch && !bSkuMatch then true
  else if !aSkuMatch && bSkuMatch then false
  else lexLe a.product_name.data b.product_name.data

/-- The filter step of `getSuggestions`: products whose code or name contains
the fragment case-insensitively. -/
def suggestionPool (catalog : List Product) (partSku : String) : List Product :=
  catalog.filter (fun p =>
    jsIncludes (jsToLower p.product_code) (jsToLower partSku) ||
    jsIncludes (jsToLower p.product_name) (jsToLower partSku))

/-- `ProductCatalogService.getSuggestions`: filter on code-or-name substring,
stable sort by `suggestionLe`, truncate to `limit` (default 10). -/
def getSuggestions (catalog : List Product) (partSku : String) (limit : Nat := 10) :
    List Product :=
  ((suggestionPool catalog partSku).mergeSort (suggestionLe partSku)).take limit

/-- Result shape of `ProductCatalogService.validateOrder`. -/
structure ValidationResult where
  valid : Bool
  product : Option Product
  issues : List String
  suggestions : List String
deriving DecidableEq

/-- Issue string `Product SKU "..." not found`. -/
def msgNotFound (sku : String) : String :=
  s!"Product SKU \x22{sku}\x22 not found"

/-- Suggestion string `Did you mean: ...?`. -/
def msgDidYouMean (similar : List Product) : String :=
  let names := String.intercalate ", " (similar.map (fun p => p.product_code))
  s!"Did you mean: {names}?"

/-- Issue string `Product "..." is out of stock`. -/
def msgOutOfStock (sku : String) : String :=
  s!"Product \x22{sku}\x22 is out of stock"

/-- Issue string for insufficient stock with the exact numbers. -/
def msgInsufficient (quantity stock : Int) : String :=
  s!"Insufficient stock. Requested: {quantity}, Available: {stock}"

/-- Suggestion string to reduce the quantity to the available stock. -/
def msgReduce (stock : Int) : String :=
  s!"Consider reducing quantity to {stock} or less"

/-- Issue string for a quantity below the minimum order quantity. -/
def msgBelowMoq (quantity moq : Int) : String :=
  s!"Quantity {quantity} is below minimum order quantity of {moq}"

/-- Suggestion string to raise the quantity to the minimum order quantity. -/
def msgIncrease (moq : Int) : String :=
  s!"Increase quantity to at least {moq}"

/-- `ProductCatalogService.validateOrder`: not-found short-circuits with a
"did you mean" suggestion list; otherwise the out-of-stock / insufficient
`else if` branch and the independent MOQ check push their issues in order. -/
def validateOrder (catalog : List Product) (sku : String) (quantity : Int) :
    ValidationResult :=
  match findBySKU catalog sku with
  | none =>
    let similar := getSuggestions catalog sku 3
    { valid := false
      product := none
      issues := [msgNotFound sku]
      suggestions := if similar.length > 0 then [msgDidYouMean similar] else [] }
  | some product =>
    let stock := product.available_in_stock
    let moq := product.min_order_quantity
    let stockIssues : List String :=
      if stock = 0 then [msgOutOfStock sku]
      else if quantity > stock then [msgInsufficient quantity stock]
      else []
    let stockSuggestions : List String :=
      if stock = 0 then []
      else if quantity > stock then [msgReduce stock]
      else []
    let moqIssues : List String :=
      if quantity < moq then [msgBelowMoq quantity moq] else []
    let moqSuggestions : List String :=
      if quantity < moq then [msgIncrease moq] else []
    { valid := (stockIssues ++ moqIssues).isEmpty
      product := some product
      issues := stockIssues ++ moqIssues
      suggestions := stockSuggestions ++ moqSuggestions }

/-- `ProductCatalogService.getAllProducts`: a copy of the products list. -/
def getAllProducts (products : List Product) : List Product :=
  products

/-- Response of the `POST /api/products/validate` handler, as far as the
validation path is concerned. -/
inductive ApiResponse where
  | badRequest (code : String) (message : String)
  | ok (validation : ValidationResult)
deriving DecidableEq

/-- JavaScript falsiness of `req.body.sku` (`undefined` or the empty string). -/
def jsFalsyString (x : Option String) : Bool :=
  match x with
  | none => true
  | some s => s == ""

/-- JavaScript falsiness of `req.body.quantity` (`undefined` or zero). -/
def jsFalsyNumber (x : Option Int) : Bool :=
  match x with
  | none => true
  | some q => q == 0

/-- The `POST /api/products/validate` handler in `backend/src/app.ts`:
`if (!sku || !quantity)` answers 400 `MISSING_PARAMS` before touching the
catalog, otherwise it delegates to `validateOrder`. -/
def validateEndpoint (catalog : List Product) (sku : Option String)
    (quantity : Option Int) : ApiResponse :=
  if jsFalsyString sku || jsFalsyNumber quantity then
    ApiResponse.badRequest "MISSING_PARAMS" "SKU and quantity are required"
  else
    ApiResponse.ok (validateOrder catalog (sku.getD "") (quantity.getD 0))

/-- `ProductCatalogService.parseCSVLine`'s character loop: `current` holds the
field being built, `inQuotes` toggles on `'"'`, a comma outside quotes closes
the trimmed field. -/
def parseCSVLineLoop : List Char → String → Bool → List String → List String
  | [], current, _inQuotes, values => values ++ [jsTrim current]
  | c :: rest, current, inQuotes, values =>
    if c == '"' then parseCSVLineLoop rest current (!inQuotes) values
    else if c == ',' && !inQuotes then
      parseCSVLineLoop rest "" inQuotes (values ++ [jsTrim current])
    else parseCSVLineLoop rest (current.push c) inQuotes values

/-- `ProductCatalogService.parseCSVLine`. -/
def parseCSVLine (line : String) : List String :=
  parseCSVLineLoop line.data "" false []

/-- `ProductCatalogService.getCategoryName`: the hard-coded prefix table. -/
def getCategoryName (code : String) : String :=
  if code == "DSK" then "Desks"
  else if code == "CHR" then "Chairs"
  else if code == "DTB" then "Dining Tables"
  else if code == "DCH" then "Dining Chairs"
  else if code == "BSF" then "Bookshelves"
  else if code == "SFA" then "Sofas"
  else if code == "CFT" then "Coffee Tables"
  else if code == "TVS" then "TV Stands"
  else "Unknown"

/-- Keyword lists of `ProductCatalogService.extractTags`. -/
def tagKeywords : List String :=
  ["modern", "classic", "contemporary", "vintage", "minimalist",
   "wood", "metal", "glass", "fabric", "leather",
   "black", "white", "brown", "gray", "blue", "red"]

/-- `ProductCatalogService.extractTags`: keywords occurring in the lowercased
name-plus-description text, in keyword-list order. -/
def extractTags (name description : String) : List String :=
  let text := jsToLower (name ++ " " ++ description)
  tagKeywords.filter (fun keyword => jsIncludes text keyword)

/-- `ProductCatalogService.parseProduct` on a field list of length at least 6:
numeric fields go through `parseFloat`/`parseInt` with `|| 0` (price, stock)
and `|| 1` (minimum order quantity) fallbacks. -/
def parseProduct (values : List String) : Product :=
  let code := values.getD 0 ""
  let name := values.getD 1 ""
  let priceStr := values.getD 2 ""
  let stockStr := values.getD 3 ""
  let moqStr := values.getD 4 ""
  let description := values.getD 5 ""
  let categoryCode := splitHead code
  { product_code := code
    product_name := name
    price := jsOrRat (jsParseFloat priceStr) 0
    available_in_stock := jsOrInt (jsParseInt stockStr) 0
    min_order_quantity := jsOrInt (jsParseInt moqStr) 1
    description := stripTrailingQuote (stripLeadingQuote description)
    category := { code := categoryCode, name := getCategoryName categoryCode }
    attributes := { tags := extractTags name description } }

/-- `ProductCatalogService.loadCatalog`'s parse loop over the file's lines
(index 1 onward, skipping the header): blank lines and lines with fewer than
six parsed fields contribute nothing, every other line pushes one product.
Models the `products` field after a successful load. -/
def loadCatalog (lines : List String) : List Product :=
  (lines.drop 1).foldl
    (fun products rawLine =>
      let line := jsTrim rawLine
      if line == "" then products
      else
        let values := parseCSVLine line
        if 6 ≤ values.length then products ++ [parseProduct values] else products)
    []

/-- `CacheEntry` of `CacheService`. -/
structure CacheEntry (α : Type) where
  value : α
  expiry : Int
  created : Int
deriving DecidableEq

/-- `CacheStats` counters of `CacheService`. -/
structure CacheStats where
  hits : Nat
  misses : Nat
  sets : Nat
  deletes : Nat
  size : Nat
deriving DecidableEq

/-- The mutable state of a `CacheService` instance. -/
structure CacheService (α : Type) where
  cache : List (String × CacheEntry α)
  defaultTTL : Int
  stats : CacheStats
deriving DecidableEq

/-- `CacheService.set`: absolute expiry is `now` plus `ttlMs || defaultTTL`. -/
def CacheService.set {α : Type} (c : CacheService α) (key : String) (value : α)
    (ttlMs : Option Int) (now : Int) : CacheService α :=
  let expiry := now + jsOrInt ttlMs c.defaultTTL
  let cache := mapSet c.cache key { value := value, expiry := expiry, created := now }
  { c with
    cache := cache
    stats := { c.stats with sets := c.stats.sets + 1, size := cache.length } }

/-- `CacheService.get`: a hit returns the value; finding an expired entry
deletes it and reports a miss. Returns the value and the updated state. -/
def CacheService.get {α : Type} (c : CacheService α) (key : String) (now : Int) :
    Option α × CacheService α :=
  match c.cache.lookup key with
  | none => (none, { c with stats := { c.stats with misses := c.stats.misses + 1 } })
  | some entry =>
    if now > entry.expiry then
      let cache := mapDelete c.cache key
      (none,
        { c with
          cache := cache
          stats := { c.stats with
            deletes := c.stats.deletes + 1
            misses := c.stats.misses + 1
            size := cache.length } })
    else (some entry.value, { c with stats := { c.stats with hits := c.stats.hits + 1 } })

/-- `RequestRecord` of `RateLimiter`. -/
structure RequestRecord where
  timestamp : Int
  count : Int
deriving DecidableEq

/-- The state of a `RateLimiter` instance. -/
structure RateLimiter where
  maxRequests : Int
  windowMs : Int
  requests : List (String × List RequestRecord)
deriving DecidableEq

/-- `RateLimiter.checkLimit`: prune the identifier's history to the window,
deny (without writing anything back) when the in-window count has reached the
maximum, otherwise store the pruned history plus a fresh record. -/
def RateLimiter.checkLimit (rl : RateLimiter) (identifier : String) (now : Int) :
    Bool × RateLimiter :=
  let windowStart := now - rl.windowMs
  let requestHistory := (rl.requests.lookup identifier).getD []
  let pruned := requestHistory.filter (fun req => decide (windowStart < req.timestamp))
  let currentCount := (pruned.map (fun req => req.count)).sum
  if rl.maxRequests ≤ currentCount then (false, rl)
  else
    (true,
      { rl with
        requests := mapSet rl.requests identifier (pruned ++ [{ timestamp := now, count := 1 }]) })

/-! Spec-side definitions: restatements of the specification's wording, to be
compared against the embedded code. -/

/-- The matcher's confidence as the specification words it: the
highest-scoring of the four applicable rules (exact code 1.0, code substring
0.8, name substring 0.6, description substring 0.4), 0 when none applies. -/
def ruleConfidence (product : Product) (query : String) : ℚ :=
  max
    (max (if jsToLower product.product_code == jsToLower query then mkRat 10 10 else 0)
      (if jsIncludes (jsToLower product.product_code) (jsToLower query) then mkRat 8 10 else 0))
    (max (if jsIncludes (jsToLower product.product_name) (jsToLower query) then mkRat 6 10 else 0)
      (if jsIncludes (jsToLower product.description) (jsToLower query) then mkRat 4 10 else 0))

/-- The search pipeline as the specification words it: rule-based scores,
candidates scoring 0 discarded, stable sort descending by confidence (ties in
catalog iteration order), truncation to the limit. -/
def specMatches (catalog : List Product) (query : String) (limit : Nat) :
    List (Product × ℚ) :=
  ((((catalog.map (fun product => (product, ruleConfidence product query))).filter
      (fun m => decide (0 < m.2))).mergeSort
    (fun a b => decide (b.2 ≤ a.2))).take limit)

/-- The search result as the specification words it. -/
def searchSpec (catalog : List Product) (query : String) (limit : Nat := 20) :
    ProductSearchResult :=
  { products := (specMatches catalog query limit).map (fun m => m.1)
    total := (specMatches catalog query limit).length
    confidence_scores := (specMatches catalog query limit).map (fun m => m.2) }

/-- One line's contribution to the loaded catalog: `none` for a blank line or
one with fewer than six parsed fields, otherwise its parsed product. -/
def lineProduct (rawLine : String) : Option Product :=
  let line := jsTrim rawLine
  if line == "" then none
  else
    let values := parseCSVLine line
    if 6 ≤ values.length then some (parseProduct values) else none

/-- The identifier's request records still inside the window at time `now`. -/
def inWindowHistory (rl : RateLimiter) (identifier : String) (now : Int) :
    List RequestRecord :=
  ((rl.requests.lookup identifier).getD []).filter
    (fun req => decide (now - rl.windowMs < req.timestamp))

/-- The identifier's in-window request count at time `now`. -/
def inWindowCount (rl : RateLimiter) (identifier : String) (now : Int) : Int :=
  ((inWindowHistory rl identifier now).map (fun req => req.count)).sum

/-! Concrete demonstration data for counterexamples and witnesses. -/

/-- A representative catalog product (the specification's `DSK-0001` example). -/
def demoDesk : Product :=
  { product_code := "DSK-0001"
    product_name := "Desk Oak"
    price := 100
    available_in_stock := 5
    min_order_quantity := 2
    description := "Classic oak desk"
    category := { code := "DSK", name := "Desks" }
    attributes := { tags := ["classic", "wood"] } }

/-- A sofa whose name sorts late lexically but comes first in the catalog. -/
def demoSofaZ : Product :=
  { product_code := "SFA-0002"
    product_name := "Zeta Sofa"
    price := 300
    available_in_stock := 2
    min_order_quantity := 1
    description := "Roomy"
    category := { code := "SFA", name := "Sofas" }
    attributes := { tags := [] } }

/-- A sofa whose name sorts early lexically but comes second in the catalog. -/
def demoSofaA : Product :=
  { product_code := "SFA-0001"
    product_name := "Alpha Sofa"
    price := 250
    available_in_stock := 4
    min_order_quantity := 1
    description := "Compact"
    category := { code := "SFA", name := "Sofas" }
    attributes := { tags := [] } }

/-- A two-product catalog where suggestion order and search order differ. -/
def demoSofas : List Product := [demoSofaZ, demoSofaA]

/-- Catalog source lines containing the same product code twice. -/
def demoDupLines : List String :=
  ["code,name,price,stock,moq,description",
   "DSK-0001,Desk Oak,100,5,2,Oak desk",
   "DSK-0001,Desk Walnut,120,3,1,Walnut desk"]

/-- Catalog source lines whose single record has six fields but a non-numeric
price, stock quantity and minimum order quantity. -/
def demoBadNumLines : List String :=
  ["code,name,price,stock,moq,description",
   "ABC-1,Widget,notanum,xyz,foo,Desc"]

/-- A fresh rate limiter with `max = 3`, `window = 1000` and no history. -/
def demoLimiter : RateLimiter :=
  { maxRequests := 3, windowMs := 1000, requests := [] }

/-- A fresh `Nat`-valued cache with the constructor's 5-minute default TTL. -/
def demoCache : CacheService Nat :=
  { cache := [], defaultTTL := 300000
    stats := { hits := 0, misses := 0, sets := 0, deletes := 0, size := 0 } }

/-! Helper lemmas. -/

theorem jsIncludes_of_beq {a b : String} (h : (a == b) = true) :
    jsIncludes a b = true := by
  cases beq_iff_eq.mp h
  simp [jsIncludes, List.infix_refl]

theorem jsIncludes_empty_query (s : String) : jsIncludes s "" = true := by
  have h : ("" : String).data = [] := rfl
  simp [jsIncludes, h, List.nil_infix]

theorem byConfidence_trans (a b c : Product × ℚ)
    (hab : decide (b.2 ≤ a.2) = true) (hbc : decide (c.2 ≤ b.2) = true) :
    decide (c.2 ≤ a.2) = true := by
  rw [decide_eq_true_eq] at hab hbc ⊢
  exact le_trans hbc hab

theorem byConfidence_total (a b : Product × ℚ) :
    (decide (b.2 ≤ a.2) || decide (a.2 ≤ b.2)) = true := by
  rcases le_total a.2 b.2 with h | h <;> simp [h]

theorem lexLe_total (as bs : List Char) : (lexLe as bs || lexLe bs as) = true := by
  induction as generalizing bs with
  | nil => simp [lexLe]
  | cons a as ih =>
    cases bs with
    | nil => simp [lexLe]
    | cons b bs =>
      by_cases h1 : a.toNat < b.toNat
      · simp [lexLe, h1]
      · by_cases h2 : b.toNat < a.toNat
        · simp [lexLe, h1, h2]
        · simp [lexLe, h1, h2, ih bs]

theorem lexLe_trans (as bs cs : List Char) (h1 : lexLe as bs = true)
    (h2 : lexLe bs cs = true) : lexLe as cs = true := by
  induction as generalizing bs cs with
  | nil => simp [lexLe]
  | cons a as ih =>
    cases bs with
    | nil => simp [lexLe] at h1
    | cons b bs =>
      cases cs with
      | nil => simp [lexLe] at h2
      | cons c cs =>
        simp only [lexLe] at h1 h2 ⊢
        by_cases hab : a.toNat < b.toNat
        · by_cases hbc : b.toNat < c.toNat
          · simp [Nat.lt_trans hab hbc]
          · by_cases hcb : c.toNat < b.toNat
            · rw [if_neg hbc, if_pos hcb] at h2
              exact absurd h2 (by simp)
            · have hbceq : b.toNat = c.toNat := Nat.le_antisymm (Nat.not_lt.mp hcb) (Nat.not_lt.mp hbc)
              simp [hbceq ▸ hab]
        · by_cases hba : b.toNat < a.toNat
          · rw [if_neg hab, if_pos hba] at h1
            exact absurd h1 (by simp)
          · have habeq : a.toNat = b.toNat := Nat.le_antisymm (Nat.not_lt.mp hba) (Nat.not_lt.mp hab)
            rw [if_neg hab, if_neg hba] at h1
            by_cases hbc : b.toNat < c.toNat
            · simp [habeq ▸ hbc]
            · by_cases hcb : c.toNat < b.toNat
              · rw [if_neg hbc, if_pos hcb] at h2
                exact absurd h2 (by simp)
              · rw [if_neg hbc, if_neg hcb] at h2
                have hac : ¬ a.toNat < c.toNat := by omega
                have hca : ¬ c.toNat < a.toNat := by omega
                rw [if_neg hac, if_neg hca]
                exact ih bs cs h1 h2

theorem suggestionLe_eq_true_iff (q : String) (a b : Product) :
    suggestionLe q a b = true ↔
      ((jsIncludes (jsToLower b.product_code) (jsToLower q) = true →
          jsIncludes (jsToLower a.product_code) (jsToLower q) = true) ∧
        (jsIncludes (jsToLower a.product_code) (jsToLower q) =
            jsIncludes (jsToLower b.product_code) (jsToLower q) →
          lexLe a.product_name.data b.product_name.data = true)) := by
  unfold suggestionLe
  cases ha : jsIncludes (jsToLower a.product_code) (jsToLower q) <;>
    cases hb : jsIncludes (jsToLower b.product_code) (jsToLower q) <;> simp

theorem suggestionLe_trans (q : String) (a b c : Product)
    (h1 : suggestionLe q a b = true) (h2 : suggestionLe q b c = true) :
    suggestionLe q a c = true := by
  rw [suggestionLe_eq_true_iff] at h1 h2 ⊢
  obtain ⟨h1s, h1n⟩ := h1
  obtain ⟨h2s, h2n⟩ := h2
  refine ⟨fun hc => h1s (h2s hc), fun hac => ?_⟩
  cases ha : jsIncludes (jsToLower a.product_code) (jsToLower q) <;>
    cases hc : jsIncludes (jsToLower c.product_code) (jsToLower q)
  · have hb : jsIncludes (jsToLower b.product_code) (jsToLower q) = false := by
      cases hb : jsIncludes (jsToLower b.product_code) (jsToLower q)
      · rfl
      · rw [h1s hb] at ha; exact absurd ha (by simp)
    exact lexLe_trans _ _ _ (h1n (ha.trans hb.symm)) (h2n (hb.trans hc.symm))
  · rw [ha, hc] at hac; exact absurd hac (by simp)
  · rw [ha, hc] at hac; exact absurd hac (by simp)
  · have hb := h2s hc
    exact lexLe_trans _ _ _ (h1n (ha.trans hb.symm)) (h2n (hb.trans hc.symm))

theorem suggestionLe_total (q : String) (a b : Product) :
    (suggestionLe q a b || suggestionLe q b a) = true := by
  unfold suggestionLe
  cases ha : jsIncludes (jsToLower a.product_code) (jsToLower q) <;>
    cases hb : jsIncludes (jsToLower b.product_code) (jsToLower q) <;>
    simp [lexLe_total]

theorem lookup_mapSet {β : Type} (m : List (String × β)) (key : String) (v : β) :
    (mapSet m key v).lookup key = some v := by
  induction m with
  | nil => simp [mapSet, List.lookup]
  | cons kv rest ih =>
    obtain ⟨k, w⟩ := kv
    by_cases h : k = key
    · subst h
      simp [mapSet, List.lookup]
    · have hb : (k == key) = false := beq_eq_false_iff_ne.mpr h
      have hb' : (key == k) = false := beq_eq_false_iff_ne.mpr (Ne.symm h)
      simp [mapSet, hb, List.lookup, hb', ih]

theorem mergeSort_one {α : Type} (le : α → α → Bool) (a : α) :
    [a].mergeSort le = [a] := by
  simp [List.mergeSort]

theorem mergeSort_pair {α : Type} (le : α → α → Bool) (a b : α) :
    [a, b].mergeSort le = if le a b then [a, b] else [b, a] := by
  simp [List.mergeSort, List.merge]

theorem calculateMatchConfidence_eq_ruleConfidence (p : Product) (q : String) :
    calculateMatchConfidence p q = ruleConfidence p q := by
  unfold calculateMatchConfidence ruleConfidence
  cases h1 : jsToLower p.product_code == jsToLower q
  · cases h2 : jsIncludes (jsToLower p.product_code) (jsToLower q)
    · cases h3 : jsIncludes (jsToLower p.product_name) (jsToLower q)
      · cases h4 : jsIncludes (jsToLower p.description) (jsToLower q)
        · simp [h1, h2, h3, h4]
        · simp [h1, h2, h3, h4] <;> decide
      · cases h4 : jsIncludes (jsToLower p.description) (jsToLower q)
        · simp [h1, h2, h3, h4] <;> decide
        · simp [h1, h2, h3, h4] <;> decide
    · cases h3 : jsIncludes (jsToLower p.product_name) (jsToLower q)
      · cases h4 : jsIncludes (jsToLower p.description) (jsToLower q)
        · simp [h1, h2, h3, h4] <;> decide
        · simp [h1, h2, h3, h4] <;> decide
      · cases h4 : jsIncludes (jsToLower p.description) (jsToLower q)
        · simp [h1, h2, h3, h4] <;> decide
        · simp [h1, h2, h3, h4] <;> decide
  · have h2 := jsIncludes_of_beq h1
    cases h3 : jsIncludes (jsToLower p.product_name) (jsToLower q)
    · cases h4 : jsIncludes (jsToLower p.description) (jsToLower q)
      · simp [h1, h2, h3, h4] <;> decide
      · simp [h1, h2, h3, h4] <;> decide
    · cases h4 : jsIncludes (jsToLower p.description) (jsToLower q)
      · simp [h1, h2, h3, h4] <;> decide
      · simp [h1, h2, h3, h4] <;> decide

theorem mem_searchMatches_snd {catalog : List Product} {query : String} {limit : Nat}
    {m : Product × ℚ} (hm : m ∈ searchMatches catalog query limit) :
    m.2 = calculateMatchConfidence m.1 query := by
  unfold searchMatches at hm
  have h1 := List.take_subset _ _ hm
  have h2 := (List.mergeSort_perm _ _).mem_iff.mp h1
  have h3 := (List.mem_filter.mp h2).1
  obtain ⟨p, _, he⟩ := List.mem_map.mp h3
  subst he
  rfl

theorem length_filterMap_countP {α β : Type} (f : α → Option β) (l : List α) :
    (l.filterMap f).length = l.countP (fun a => (f a).isSome) := by
  induction l with
  | nil => simp
  | cons a l ih =>
    rw [List.filterMap_cons, List.countP_cons]
    cases h : f a <;> simp [h, ih]

theorem loadCatalog_eq_filterMap (lines : List String) :
    loadCatalog lines = (lines.drop 1).filterMap lineProduct := by
  unfold loadCatalog
  suffices h : ∀ (l : List String) (acc : List Product),
      l.foldl
        (fun products rawLine =>
          let line := jsTrim rawLine
          if line == "" then products
          else
            let values := parseCSVLine line
            if 6 ≤ values.length then products ++ [parseProduct values] else products)
        acc = acc ++ l.filterMap lineProduct by
    simpa using h (lines.drop 1) []
  intro l
  induction l with
  | nil => simp
  | cons x l ih =>
    intro acc
    rw [List.foldl_cons, List.filterMap_cons]
    by_cases hblank : jsTrim x == ""
    · simp only [hblank, if_pos]
      rw [ih acc]
      have hx : lineProduct x = none := by
        unfold lineProduct
        simp [hblank]
      simp [hx]
    · by_cases hlen : 6 ≤ (parseCSVLine (jsTrim x)).length
      · simp only [hblank, if_neg, Bool.false_eq_true, not_false_iff, if_pos, hlen]
        rw [ih (acc ++ [parseProduct (parseCSVLine (jsTrim x))])]
        have hx : lineProduct x = some (parseProduct (parseCSVLine (jsTrim x))) := by
          unfold lineProduct
          simp [hblank, hlen]
        simp [hx]
      · simp only [hblank, if_neg, Bool.false_eq_true, not_false_iff, hlen]
        rw [ih acc]
        have hx : lineProduct x = none := by
          unfold lineProduct
          simp [hblank, hlen]
        simp [hx]

theorem validateOrder_found_issues (catalog : List Product) (sku : String) (quantity : Int)
    {p : Product} (hf : findBySKU catalog sku = some p) :
    (validateOrder catalog sku quantity).issues =
      (if p.available_in_stock = 0 then [msgOutOfStock sku]
        else if quantity > p.available_in_stock then
          [msgInsufficient quantity p.available_in_stock]
        else []) ++
      (if quantity < p.min_order_quantity then [msgBelowMoq quantity p.min_order_quantity]
        else []) := by
  simp only [validateOrder, hf]

theorem validateOrder_found_valid (catalog : List Product) (sku : String) (quantity : Int)
    {p : Product} (hf : findBySKU catalog sku = some p) :
    (validateOrder catalog sku quantity).valid =
      ((validateOrder catalog sku quantity).issues).isEmpty := by
  simp only [validateOrder, hf]

/-! Claim theorems. -/

/-- Claim C5: the validation endpoint requires both a SKU and a quantity: a
request with a missing quantity is answered with 400 `MISSING_PARAMS`, the
answer does not depend on the catalog (no catalog access), and no validation
outcome — valid or otherwise — is ever produced. -/
theorem c5_missing_quantity_rejected (catalog catalog2 : List Product)
    (sku : Option String) :
    validateEndpoint catalog sku none =
        ApiResponse.badRequest "MISSING_PARAMS" "SKU and quantity are required" ∧
      validateEndpoint catalog sku none = validateEndpoint catalog2 sku none ∧
      ∀ v, validateEndpoint catalog sku none ≠ ApiResponse.ok v := by
  refine ⟨?_, ?_, ?_⟩ <;> simp [validateEndpoint, jsFalsyNumber]

/-- Claim C2: on a catalog with non-negative stock, `validateOrder` yields a
valid outcome exactly when the SKU resolves to a product with positive stock
whose constraints the quantity meets; `valid` coincides with an empty issue
list; a missed lookup contributes exactly the not-found issue; on a found
product the issue list is the out-of-stock / insufficient-stock alternative
followed independently by the below-MOQ issue — the fixed order. -/
theorem c2_validateOrder_valid_iff (catalog : List Product) (sku : String) (quantity : Int)
    (hstock : ∀ p ∈ catalog, 0 ≤ p.available_in_stock) :
    ((validateOrder catalog sku quantity).valid = true ↔
        ∃ p, findBySKU catalog sku = some p ∧ 0 < p.available_in_stock ∧
          quantity ≤ p.available_in_stock ∧ p.min_order_quantity ≤ quantity) ∧
      ((validateOrder catalog sku quantity).valid = true ↔
        (validateOrder catalog sku quantity).issues = []) ∧
      (findBySKU catalog sku = none →
        (validateOrder catalog sku quantity).issues = [msgNotFound sku]) ∧
      (∀ p, findBySKU catalog sku = some p →
        (validateOrder catalog sku quantity).issues =
          (if p.available_in_stock = 0 then [msgOutOfStock sku]
            else if quantity > p.available_in_stock then
              [msgInsufficient quantity p.available_in_stock]
            else []) ++
          (if quantity < p.min_order_quantity then [msgBelowMoq quantity p.min_order_quantity]
            else [])) := by
  cases hf : findBySKU catalog sku with
  | none =>
    refine ⟨?_, ?_, fun _ => ?_, fun p hp => ?_⟩
    · simp [validateOrder, hf]
    · simp [validateOrder, hf]
    · simp [validateOrder, hf]
    · simp [hf] at hp
  | some p =>
    have hp0 : 0 ≤ p.available_in_stock := hstock p (List.mem_of_find?_eq_some hf)
    have hiss := validateOrder_found_issues catalog sku quantity hf
    have hval := validateOrder_found_valid catalog sku quantity hf
    have hchar : (validateOrder catalog sku quantity).valid = true ↔
        (¬ p.available_in_stock = 0 ∧ ¬ quantity > p.available_in_stock ∧
          ¬ quantity < p.min_order_quantity) := by
      rw [hval, hiss, List.isEmpty_iff]
      by_cases h0 : p.available_in_stock = 0 <;>
        by_cases hq : quantity > p.available_in_stock <;>
          by_cases hm : quantity < p.min_order_quantity <;>
            simp [h0, hq, hm]
    refine ⟨?_, ?_, fun hn => ?_, fun p' hp' => ?_⟩
    · rw [hchar]
      constructor
      · rintro ⟨h0, hq, hm⟩
        exact ⟨p, rfl, by omega, by omega, by omega⟩
      · rintro ⟨p', hp', hpos, hle, hmoq⟩
        cases hp'
        exact ⟨by omega, by omega, by omega⟩
    · rw [hval]
      exact List.isEmpty_iff
    · simp at hn
    · cases hp'
      exact hiss

/-- Witness for C2: the specification's `DSK-0001` example catalog has
non-negative stock, and the valid-outcome characterization holds there for
`validate("DSK-0001", 3)`. -/
theorem c2_validateOrder_valid_iff_witness :
    (∀ p ∈ [demoDesk], 0 ≤ p.available_in_stock) ∧
      ((validateOrder [demoDesk] "DSK-0001" 3).valid = true ↔
        ∃ p, findBySKU [demoDesk] "DSK-0001" = some p ∧ 0 < p.available_in_stock ∧
          (3 : Int) ≤ p.available_in_stock ∧ p.min_order_quantity ≤ 3) :=
  ⟨by decide, (c2_validateOrder_valid_iff [demoDesk] "DSK-0001" 3 (by decide)).1⟩

/-- Counterexample to C4 as stated: loading a source whose data repeats the
code `DSK-0001` yields two catalog entries for that code, not exactly one. -/
theorem c4_counterexample :
    ((loadCatalog demoDupLines).map (fun p => p.product_code)) =
        ["DSK-0001", "DSK-0001"] ∧
      ((loadCatalog demoDupLines).filter (fun p => p.product_code == "DSK-0001")).length ≠ 1 := by
  constructor
  · decide
  · decide

/-- Claim C4 amended: duplicate codes are not collapsed — every parseable
record contributes its own catalog entry (the catalog size counts duplicated
codes separately), `getAllProducts` returns the catalog list as-is, and the
duplicated-code demonstration source exposes both entries through
`getAllProducts`. -/
theorem c4_duplicates_retained :
    (∀ lines : List String, (loadCatalog lines).length =
        (lines.drop 1).countP (fun rawLine => (lineProduct rawLine).isSome)) ∧
      (∀ products : List Product, getAllProducts products = products) ∧
      ((getAllProducts (loadCatalog demoDupLines)).map (fun p => p.product_code)) =
        ["DSK-0001", "DSK-0001"] := by
  refine ⟨fun lines => ?_, fun products => rfl, ?_⟩
  · rw [loadCatalog_eq_filterMap, length_filterMap_countP]
  · decide

/-- Counterexample to C7 as stated: a six-field record whose price, stock and
minimum order quantity are all non-numeric is not skipped — it contributes a
catalog entry carrying the fallback values price 0, stock 0, MOQ 1. -/
theorem c7_counterexample :
    (loadCatalog demoBadNumLines).length = 1 ∧
      ((loadCatalog demoBadNumLines).map
        (fun p => (p.price, p.available_in_stock, p.min_order_quantity))) =
        [((0 : ℚ), (0 : Int), (1 : Int))] := by
  constructor
  · decide
  · decide

/-- Claim C7 amended: the load never aborts and skips exactly the blank lines
and those with fewer than six parsed fields (each skipped line contributes no
entry); a non-numeric price, stock or MOQ does not cause a skip — the record
is loaded with the `|| 0` / `|| 0` / `|| 1` fallback values instead. -/
theorem c7_malformed_records :
    (∀ lines : List String, loadCatalog lines = (lines.drop 1).filterMap lineProduct) ∧
      (∀ rawLine : String, (parseCSVLine (jsTrim rawLine)).length < 6 →
        lineProduct rawLine = none) ∧
      (∀ values : List String, jsParseFloat (values.getD 2 "") = none →
        (parseProduct values).price = 0) ∧
      (∀ values : List String, jsParseInt (values.getD 3 "") = none →
        (parseProduct values).available_in_stock = 0) ∧
      (∀ values : List String, jsParseInt (values.getD 4 "") = none →
        (parseProduct values).min_order_quantity = 1) := by
  refine ⟨loadCatalog_eq_filterMap, fun rawLine hlen => ?_, fun values h => ?_,
    fun values h => ?_, fun values h => ?_⟩
  · unfold lineProduct
    by_cases hblank : jsTrim rawLine == ""
    · simp [hblank]
    · simp [hblank, Nat.not_le.mpr hlen]
  · simp only [List.getD, List.get?_eq_getElem?] at h
    simp [parseProduct, h, jsOrRat]
  · simp only [List.getD, List.get?_eq_getElem?] at h
    simp [parseProduct, h, jsOrInt]
  · simp only [List.getD, List.get?_eq_getElem?] at h
    simp [parseProduct, h, jsOrInt]

/-- Witness for C7: the demonstration record's non-numeric fields parse to
`NaN`, and the loaded entry indeed carries the fallback price 0, stock 0 and
MOQ 1 rather than being skipped. -/
theorem c7_malformed_records_witness :
    (jsParseFloat "notanum" = none ∧
        (parseProduct ["ABC-1", "Widget", "notanum", "xyz", "foo", "Desc"]).price = 0) ∧
      (jsParseInt "xyz" = none ∧
        (parseProduct ["ABC-1", "Widget", "notanum", "xyz", "foo", "Desc"]).available_in_stock = 0) ∧
      (jsParseInt "foo" = none ∧
        (parseProduct ["ABC-1", "Widget", "notanum", "xyz", "foo", "Desc"]).min_order_quantity = 1) :=
  ⟨⟨by decide,
      c7_malformed_records.2.2.1 ["ABC-1", "Widget", "notanum", "xyz", "foo", "Desc"] (by decide)⟩,
    ⟨by decide,
      c7_malformed_records.2.2.2.1 ["ABC-1", "Widget", "notanum", "xyz", "foo", "Desc"] (by decide)⟩,
    ⟨by decide,
      c7_malformed_records.2.2.2.2 ["ABC-1", "Widget", "notanum", "xyz", "foo", "Desc"] (by decide)⟩⟩

/-- Claim C8: `set` stores an absolute expiry of the set time plus the given
(or, when absent or zero, default) TTL; `get` returns the value exactly when
an unexpired entry exists, and a `get` that finds an expired entry deletes it
and reports a miss; so a 100 ms TTL entry misses when read 150 ms later and
hits when read 50 ms later. -/
theorem c8_cache_ttl :
    (∀ (α : Type) (c : CacheService α) (key : String) (value : α) (ttlMs : Option Int)
        (now : Int),
      ((CacheService.set c key value ttlMs now).cache.lookup key) =
        some { value := value, expiry := now + jsOrInt ttlMs c.defaultTTL, created := now }) ∧
      (∀ (α : Type) (c : CacheService α) (key : String) (now : Int) (v : α),
        ((CacheService.get c key now).1 = some v ↔
          ∃ e, c.cache.lookup key = some e ∧ e.value = v ∧ now ≤ e.expiry)) ∧
      (∀ (α : Type) (c : CacheService α) (key : String) (now : Int) (e : CacheEntry α),
        c.cache.lookup key = some e → e.expiry < now →
        (CacheService.get c key now).1 = none ∧
          (CacheService.get c key now).2.cache = mapDelete c.cache key) ∧
      (∀ (α : Type) (c : CacheService α) (k : String) (v : α) (t0 : Int),
        ((CacheService.set c k v (some 100) t0).get k (t0 + 150)).1 = none ∧
          ((CacheService.set c k v (some 100) t0).get k (t0 + 50)).1 = some v) := by
  have hset : ∀ (α : Type) (c : CacheService α) (key : String) (value : α) (ttlMs : Option Int)
      (now : Int),
      ((CacheService.set c key value ttlMs now).cache.lookup key) =
        some { value := value, expiry := now + jsOrInt ttlMs c.defaultTTL, created := now } := by
    intro α c key value ttlMs now
    simp only [CacheService.set]
    exact lookup_mapSet _ _ _
  refine ⟨hset, fun α c key now v => ?_, fun α c key now e hl he => ?_, fun α c k v t0 => ?_⟩
  · cases hl : c.cache.lookup key with
    | none => simp [CacheService.get, hl]
    | some e =>
      by_cases hexp : now > e.expiry
      · have hne : ¬ now ≤ e.expiry := by omega
        simp [CacheService.get, hl, hexp, hne]
      · have hle : now ≤ e.expiry := by omega
        simp [CacheService.get, hl, hexp, hle, eq_comm]
  · refine ⟨?_, ?_⟩ <;> simp [CacheService.get, hl, he]
  · have h1 := hset α c k v (some 100) t0
    have hor : jsOrInt (some 100) c.defaultTTL = 100 := by norm_num [jsOrInt]
    rw [hor] at h1
    constructor
    · have hgt : t0 + 150 > t0 + 100 := by omega
      simp [CacheService.get, h1, hgt]
    · have hgt : ¬ (t0 + 50 > t0 + 100) := by omega
      simp [CacheService.get, h1, hgt]

/-- Witness for C8: on a concrete cache holding one entry with expiry 100, a
read at time 200 finds the expired entry, reports a miss and deletes it. -/
theorem c8_cache_ttl_witness :
    ((CacheService.set demoCache "k" 7 (some 100) 0).cache.lookup "k" =
        some { value := 7, expiry := 100, created := 0 }) ∧
      (((CacheService.set demoCache "k" 7 (some 100) 0).get "k" 200).1 = none ∧
        ((CacheService.set demoCache "k" 7 (some 100) 0).get "k" 200).2.cache =
          mapDelete (CacheService.set demoCache "k" 7 (some 100) 0).cache "k") :=
  ⟨by decide,
    c8_cache_ttl.2.2.1 Nat (CacheService.set demoCache "k" 7 (some 100) 0) "k" 200
      { value := 7, expiry := 100, created := 0 } (by decide) (by decide)⟩

/-- Claim C9: `checkLimit` grants exactly when the pruned in-window count is
below the maximum, writes back the pruned history plus a fresh timestamp only
when it grants (a denial leaves the state untouched), and with `max = 3`,
`window = 1000`, four rapid calls yield allow, allow, allow, deny while a
fifth call after the window has elapsed is allowed again. -/
theorem c9_checkLimit_spec :
    (∀ (rl : RateLimiter) (identifier : String) (now : Int),
      ((rl.checkLimit identifier now).1 = true ↔
          inWindowCount rl identifier now < rl.maxRequests) ∧
        ((rl.checkLimit identifier now).1 = true →
          ((rl.checkLimit identifier now).2.requests.lookup identifier) =
            some (inWindowHistory rl identifier now ++ [{ timestamp := now, count := 1 }])) ∧
        ((rl.checkLimit identifier now).1 = false → (rl.checkLimit identifier now).2 = rl)) ∧
      ((demoLimiter.checkLimit "default" 0).1 = true ∧
        ((demoLimiter.checkLimit "default" 0).2.checkLimit "default" 0).1 = true ∧
        (((demoLimiter.checkLimit "default" 0).2.checkLimit "default" 0).2.checkLimit
          "default" 0).1 = true ∧
        ((((demoLimiter.checkLimit "default" 0).2.checkLimit "default" 0).2.checkLimit
          "default" 0).2.checkLimit "default" 0).1 = false ∧
        (((((demoLimiter.checkLimit "default" 0).2.checkLimit "default" 0).2.checkLimit
          "default" 0).2.checkLimit "default" 0).2.checkLimit "default" 1001).1 = true) := by
  constructor
  · intro rl identifier now
    have hdef : rl.checkLimit identifier now =
        (if rl.maxRequests ≤ inWindowCount rl identifier now then (false, rl)
          else (true,
            { rl with
              requests := mapSet rl.requests identifier
                (inWindowHistory rl identifier now ++
                  [{ timestamp := now, count := 1 }]) })) := by
      simp [RateLimiter.checkLimit, inWindowCount, inWindowHistory]
    by_cases h : rl.maxRequests ≤ inWindowCount rl identifier now
    · rw [hdef, if_pos h]
      refine ⟨?_, fun hc => by simp at hc, fun _ => rfl⟩
      constructor
      · intro hc
        simp at hc
      · intro hc
        omega
    · rw [hdef, if_neg h]
      refine ⟨?_, fun _ => ?_, fun hc => by simp at hc⟩
      · simp
        omega
      · exact lookup_mapSet _ _ _
  · refine ⟨by decide, by decide, by decide, by decide, by decide⟩

/-- Witness for C9: the first call on a fresh limiter is granted and records
the fresh timestamp under the identifier. -/
theorem c9_checkLimit_spec_witness :
    ((demoLimiter.checkLimit "default" 0).2.requests.lookup "default") =
      some (inWindowHistory demoLimiter "default" 0 ++ [{ timestamp := 0, count := 1 }]) :=
  (c9_checkLimit_spec.1 demoLimiter "default" 0).2.1 (by decide)

/-- Claim C1: for every non-empty query the search result coincides with the
specification's pipeline — per-product highest-scoring rule, zero scores
discarded, stable descending sort with catalog-order ties, truncation to the
limit — and the returned scores are sorted descending with at most `limit`
products. -/
theorem c1_search_follows_spec (catalog : List Product) (query : String) (limit : Nat)
    (hq : query ≠ "") :
    searchProducts catalog query limit = searchSpec catalog query limit ∧
      List.Pairwise (fun a b : ℚ => b ≤ a)
        (searchProducts catalog query limit).confidence_scores ∧
      (searchProducts catalog query limit).products.length ≤ limit ∧
      (∀ a b : Product × ℚ,
        List.Sublist [a, b]
          ((catalog.map (fun product =>
            (product, calculateMatchConfidence product query))).filter
              (fun m => decide (0 < m.2))) →
        a.2 = b.2 →
        List.Sublist [a, b]
          (((catalog.map (fun product =>
            (product, calculateMatchConfidence product query))).filter
              (fun m => decide (0 < m.2))).mergeSort
            (fun a b => decide (b.2 ≤ a.2)))) := by
  refine ⟨?_, ?_, ?_, fun a b hsub htie => ?_⟩
  · have h : searchMatches catalog query limit = specMatches catalog query limit := by
      unfold searchMatches specMatches
      simp [calculateMatchConfidence_eq_ruleConfidence]
    simp [searchProducts, searchSpec, h]
  · have hs := List.sorted_mergeSort byConfidence_trans byConfidence_total
      ((catalog.map (fun product => (product, calculateMatchConfidence product query))).filter
        (fun m => decide (0 < m.2)))
    have hs' : List.Pairwise (fun a b : Product × ℚ => b.2 ≤ a.2)
        (((catalog.map (fun product =>
            (product, calculateMatchConfidence product query))).filter
          (fun m => decide (0 < m.2))).mergeSort
            (fun a b : Product × ℚ => decide (b.2 ≤ a.2))) :=
      hs.imp (fun hab => by rwa [decide_eq_true_eq] at hab)
    have ht : List.Pairwise (fun a b : Product × ℚ => b.2 ≤ a.2)
        (searchMatches catalog query limit) :=
      List.Pairwise.sublist (List.take_sublist _ _) hs'
    simpa [searchProducts, List.pairwise_map] using ht
  · simp only [searchProducts, List.length_map]
    unfold searchMatches
    rw [List.length_take]
    exact min_le_left _ _
  · refine List.sublist_mergeSort byConfidence_trans byConfidence_total ?_ hsub
    simp [List.pairwise_cons, htie]

/-- Witness for C1: the non-empty query `"desk"` on the one-product
demonstration catalog satisfies the spec pipeline equation. -/
theorem c1_search_follows_spec_witness :
    ("desk" : String) ≠ "" ∧
      searchProducts [demoDesk] "desk" 20 = searchSpec [demoDesk] "desk" 20 :=
  ⟨by decide, (c1_search_follows_spec [demoDesk] "desk" 20 (by decide)).1⟩

theorem calcConf_empty_ge (p : Product) :
    mkRat 8 10 ≤ calculateMatchConfidence p "" := by
  unfold calculateMatchConfidence
  have he : jsToLower "" = "" := rfl
  rw [he]
  cases h1 : jsToLower p.product_code == ""
  · rw [if_neg (by simp [h1]), if_pos (by rw [jsIncludes_empty_query])]
  · rw [if_pos (by simp [h1])]
    decide

/-- Counterexample to C3 as stated: on a one-product catalog the empty query
returns that product — every string contains the empty substring, so the
product scores 0.8 — rather than an empty result set. -/
theorem c3_counterexample :
    (searchProducts [demoDesk] "" 20).products ≠ [] := by
  have h1 : (([demoDesk].map (fun product =>
      (product, calculateMatchConfidence product ""))).filter
        (fun m => decide (0 < m.2))) = [(demoDesk, mkRat 8 10)] := by decide
  have h2 : searchMatches [demoDesk] "" 20 = [(demoDesk, mkRat 8 10)] := by
    unfold searchMatches
    rw [h1, mergeSort_one]
    rfl
  simp [searchProducts, h2]

/-- Claim C3 amended: the empty query matches every catalog product (each
scores at least 0.8, since every string contains the empty substring), so the
search returns `min limit catalogSize` products, not an empty result set. -/
theorem c3_empty_query_matches_all (catalog : List Product) (limit : Nat) :
    (searchProducts catalog "" limit).total = min limit catalog.length ∧
      ∀ s ∈ (searchProducts catalog "" limit).confidence_scores, mkRat 8 10 ≤ s := by
  constructor
  · have hfil : (catalog.map (fun product =>
        (product, calculateMatchConfidence product ""))).filter
          (fun m => decide (0 < m.2)) =
        catalog.map (fun product => (product, calculateMatchConfidence product "")) :=
      List.filter_eq_self.mpr (fun m hm => by
        obtain ⟨p, _, he⟩ := List.mem_map.mp hm
        subst he
        simp only [decide_eq_true_eq]
        exact lt_of_lt_of_le (by decide) (calcConf_empty_ge p))
    have hlen : (searchMatches catalog "" limit).length = min limit catalog.length := by
      unfold searchMatches
      rw [hfil, List.length_take, (List.mergeSort_perm _ _).length_eq, List.length_map]
    simpa [searchProducts] using hlen
  · intro s hs
    simp only [searchProducts] at hs
    obtain ⟨m, hm, he⟩ := List.mem_map.mp hs
    subst he
    rw [mem_searchMatches_snd hm]
    exact calcConf_empty_ge m.1

/-- Claim C6: suggestions contain only code-or-name substring matches (the
description tier is never consulted), every code match precedes every
name-only match, remaining ties follow name lexical order, the list is capped
at the limit and is a permutation of all matches when they fit; on the
demonstration catalog this ranking differs from the general search's
score-based ordering. -/
theorem c6_suggestions_ranking :
    (∀ (catalog : List Product) (q : String) (limit : Nat),
      (getSuggestions catalog q limit).length ≤ limit ∧
        (∀ p ∈ getSuggestions catalog q limit,
          (jsIncludes (jsToLower p.product_code) (jsToLower q) ||
            jsIncludes (jsToLower p.product_name) (jsToLower q)) = true) ∧
        List.Pairwise (fun a b =>
          (jsIncludes (jsToLower b.product_code) (jsToLower q) = true →
            jsIncludes (jsToLower a.product_code) (jsToLower q) = true) ∧
          (jsIncludes (jsToLower a.product_code) (jsToLower q) =
              jsIncludes (jsToLower b.product_code) (jsToLower q) →
            lexLe a.product_name.data b.product_name.data = true))
          (getSuggestions catalog q limit) ∧
        ((suggestionPool catalog q).length ≤ limit →
          (getSuggestions catalog q limit).Perm (suggestionPool catalog q))) ∧
      getSuggestions demoSofas "sofa" 10 ≠ (searchProducts demoSofas "sofa" 10).products := by
  refine ⟨fun catalog q limit => ⟨?_, ?_, ?_, ?_⟩, ?_⟩
  · unfold getSuggestions
    rw [List.length_take]
    exact min_le_left _ _
  · intro p hp
    unfold getSuggestions at hp
    have h1 := List.take_subset _ _ hp
    have h2 := (List.mergeSort_perm _ _).mem_iff.mp h1
    exact (List.mem_filter.mp h2).2
  · have hs := List.sorted_mergeSort (suggestionLe_trans q) (suggestionLe_total q)
      (suggestionPool catalog q)
    have hs' := hs.imp (fun h => (suggestionLe_eq_true_iff q _ _).mp h)
    exact List.Pairwise.sublist (List.take_sublist _ _) hs'
  · intro hlen
    unfold getSuggestions
    rw [List.take_of_length_le]
    · exact List.mergeSort_perm _ _
    · rw [(List.mergeSort_perm _ _).length_eq]
      exact hlen
  · have hpool : suggestionPool demoSofas "sofa" = [demoSofaZ, demoSofaA] := by decide
    have hle : suggestionLe "sofa" demoSofaZ demoSofaA = false := by decide
    have h1 : getSuggestions demoSofas "sofa" 10 = [demoSofaA, demoSofaZ] := by
      unfold getSuggestions
      rw [hpool, mergeSort_pair, hle]
      rfl
    have hfil : (demoSofas.map (fun product =>
        (product, calculateMatchConfidence product "sofa"))).filter
          (fun m => decide (0 < m.2)) =
        [(demoSofaZ, mkRat 6 10), (demoSofaA, mkRat 6 10)] := by decide
    have h2 : searchMatches demoSofas "sofa" 10 =
        [(demoSofaZ, mkRat 6 10), (demoSofaA, mkRat 6 10)] := by
      unfold searchMatches
      rw [hfil, mergeSort_pair, if_pos (by decide)]
      rfl
    rw [h1]
    simp only [searchProducts, h2]
    decide

/-- Witness for C6: the demonstration pool of matches fits within the limit,
and the returned suggestions are a permutation of it. -/
theorem c6_suggestions_ranking_witness :
    (suggestionPool demoSofas "sofa").length ≤ 10 ∧
      (getSuggestions demoSofas "sofa" 10).Perm (suggestionPool demoSofas "sofa") :=
  ⟨by decide, (c6_suggestions_ranking.1 demoSofas "sofa" 10).2.2.2 (by decide)⟩

/-- Claim C10: the result's `total` field equals the length of the truncated
product list — bounded by the limit, and distinct from the number of matching
catalog entries, as the two-match limit-one demonstration shows — and the
i-th confidence score is exactly the i-th returned product's confidence. -/
theorem c10_search_total_and_scores :
    (∀ (catalog : List Product) (query : String) (limit : Nat),
      (searchProducts catalog query limit).total =
          (searchProducts catalog query limit).products.length ∧
        (searchProducts catalog query limit).total ≤ limit ∧
        (searchProducts catalog query limit).confidence_scores =
          (searchProducts catalog query limit).products.map
            (fun p => calculateMatchConfidence p query)) ∧
      ((demoSofas.filter (fun p => decide (0 < calculateMatchConfidence p "sofa"))).length =
          2 ∧
        (searchProducts demoSofas "sofa" 1).total = 1) := by
  refine ⟨fun catalog query limit => ⟨?_, ?_, ?_⟩, ?_, ?_⟩
  · simp [searchProducts]
  · simp only [searchProducts]
    unfold searchMatches
    rw [List.length_take]
    exact min_le_left _ _
  · simp only [searchProducts]
    rw [List.map_map]
    exact List.map_congr_left (fun m hm => mem_searchMatches_snd hm)
  · decide
  · have hfil : (demoSofas.map (fun product =>
        (product, calculateMatchConfidence product "sofa"))).filter
          (fun m => decide (0 < m.2)) =
        [(demoSofaZ, mkRat 6 10), (demoSofaA, mkRat 6 10)] := by decide
    have h2 : searchMatches demoSofas "sofa" 1 = [(demoSofaZ, mkRat 6 10)] := by
      unfold searchMatches
      rw [hfil, mergeSort_pair, if_pos (by decide)]
      rfl
    simp [searchProducts, h2]

end Zaqathon
